import Mathlib

/-!
Shallow embedding of `src/untis_to_icloud.py` (Untis → iCloud calendar sync).

The script pulls lessons from a WebUntis JSON-RPC endpoint, builds one iCalendar
blob per lesson, and reconciles them against the events already stored in an
iCloud CalDAV calendar.  The embedding below mirrors the script function by
function:

* `Lesson` models the JSON lesson dict (`lesson.get('id')` is a defensive read,
  so `id` is an `Option`; `lesson["date"]`, `lesson["startTime"]`,
  `lesson["endTime"]` are direct indexing, modelled as `Option` fields whose
  absence makes `build_event` return a `KeyError`-style `Except.error`).
* `labels`, `uid_for`, `to_local`, `build_event` embed the identically named
  Python functions; `pyStrip` models Python's `str.strip()`.
* `serializeCal` is a canonical deterministic rendering of the iCalendar output
  of `cal.to_ical()`: its exact byte format is irrelevant to the claims, what
  matters is that it is a deterministic function of every event field —
  including `dtstamp`, which the script fills with `datetime.utcnow()`.
* `cuLoop` / `delLoop` / `syncPass` embed the reconciliation loops of `main`
  (lines 182–202).  `StoreBehavior` models which individual CalDAV calls raise.
* `fetch_tt` embeds the single `getTimetable` RPC call, also returning the list
  of RPC method names invoked.
* `runProgram` embeds the `require_env` pre-flight loop of `main` together with
  the `if __name__ == "__main__"` handler (`sys.exit(2)` for missing
  configuration, `sys.exit(1)` for any other unhandled exception; `SystemExit`
  is not an `Exception` in Python, so the exit code 2 survives the handler).
-/

set_option linter.unusedVariables false

namespace Untis

/-- One element of the `su` / `te` / `ro` / `kl` arrays of a lesson dict:
a display label with a preferred long form and a short-name fallback. -/
structure LessonLabel where
  longname : Option String
  name : Option String
deriving Repr, DecidableEq

/-- A lesson dict as returned by `getTimetable`.  Fields read with `.get` in
the script are defensive; `date`/`startTime`/`endTime` are read by direct
indexing and are therefore `Option`s only to model the *missing key* case. -/
structure Lesson where
  id : Option Int
  date : Option Nat
  startTime : Option Nat
  endTime : Option Nat
  su : List LessonLabel
  te : List LessonLabel
  ro : List LessonLabel
  kl : List LessonLabel
  code : Option String
  cancelled : Bool
deriving Repr, DecidableEq

/-- The environment-derived constants the sync logic reads:
`UNTIS_SERVER`, `MARK_CANCELLED`, `DELETE_MISSING`. -/
structure Config where
  server : String
  markCancelled : Bool
  deleteMissing : Bool
deriving Repr, DecidableEq

/-- Which individual CalDAV calls raise, keyed by the event uid:
`cal.add_event`, `obj.save`, `obj.delete`. -/
structure StoreBehavior where
  addFails : String → Bool
  saveFails : String → Bool
  deleteFails : String → Bool

/-- Python truthiness fallback `x or y` for optional strings
(`None` and `""` are falsy). -/
def orStr (x : Option String) (y : String) : String :=
  match x with
  | some v => if v = "" then y else v
  | none => y

/-- Embeds `a.get("longname") or a.get("name") or ""`. -/
def labelValue (a : LessonLabel) : String :=
  orStr a.longname (orStr a.name "")

/-- Embeds `labels(item, key)`: join the truthy label values with ", ". -/
def labels (arr : List LessonLabel) : String :=
  String.intercalate ", " ((arr.map labelValue).filter (fun v => v != ""))

/-- Rendering of `lesson.get('id')` inside the f-string of `uid_for`:
Python prints `None` for a missing id. -/
def idRepr (l : Lesson) : String :=
  match l.id with
  | some i => toString i
  | none => "None"

/-- Embeds `uid_for`: `f"untis-{lesson.get('id')}@{UNTIS_SERVER}"`. -/
def uid_for (server : String) (l : Lesson) : String :=
  "untis-" ++ idRepr l ++ "@" ++ server

/-- A wall-clock timestamp in the fixed `Europe/Berlin` zone, as produced by
`TZ.localize(datetime(y, m, d, h, mi))`. -/
structure LocalDT where
  year : Nat
  month : Nat
  day : Nat
  hour : Nat
  minute : Nat
deriving Repr, DecidableEq

/-- Embeds `to_local`: decompose the `YYYYMMDD` integer via string slicing
(equal to div/mod arithmetic for the 8-digit dates Untis emits) and the
`HHMM` integer via `// 100` and `% 100`. -/
def to_local (dateInt timeInt : Nat) : LocalDT :=
  { year := dateInt / 10000
    month := dateInt / 100 % 100
    day := dateInt % 100
    hour := timeInt / 100
    minute := timeInt % 100 }

/-- Head of a character list is absent or not whitespace. -/
def headNoWs : List Char → Bool
  | [] => true
  | c :: _ => !c.isWhitespace

/-- Left strip: drop leading whitespace. -/
def stripL (l : List Char) : List Char := l.dropWhile Char.isWhitespace

/-- Right strip: drop trailing whitespace. -/
def stripR (l : List Char) : List Char := (l.reverse.dropWhile Char.isWhitespace).reverse

/-- Both-sided strip on character lists. -/
def stripList (l : List Char) : List Char := stripR (stripL l)

/-- Embeds Python's `str.strip()`. -/
def pyStrip (s : String) : String := ⟨stripList s.data⟩

/-- A string neither starts nor ends with whitespace. -/
def noEdgeWs (s : String) : Bool := headNoWs s.data && headNoWs s.data.reverse

/-- Embeds the description construction of `build_event` (lines 113–117):
`"\n".join([...]).strip()` over the three conditional lines. -/
def desc_of (teachers rooms klasse : String) : String :=
  pyStrip ((if teachers ≠ "" then "Lehrer: " ++ teachers else "") ++ "\n" ++
    (if rooms ≠ "" then "Raum: " ++ rooms else "") ++ "\n" ++
    (if klasse ≠ "" then "Klasse: " ++ klasse else ""))

/-- Newline join of a list of lines. -/
def joinNL : List String → String
  | [] => ""
  | [x] => x
  | x :: xs => x ++ "\n" ++ joinNL xs

/-- Modelled from the spec: the lines of the description per the spec's words —
one line per field that has labels, fields without labels omitted entirely. -/
def descSpecLines (teachers rooms klasse : String) : List String :=
  (if teachers ≠ "" then ["Lehrer: " ++ teachers] else []) ++
  (if rooms ≠ "" then ["Raum: " ++ rooms] else []) ++
  (if klasse ≠ "" then ["Klasse: " ++ klasse] else [])

/-- Modelled from the spec: "Description is the newline-joined set of non-empty
lines, omitting any field with no labels" — stated for comparison against the
code's `desc_of`. -/
def descSpec (teachers rooms klasse : String) : String :=
  joinNL (descSpecLines teachers rooms klasse)

/-- The fields the script puts into the `icalendar` `Event` (lines 124–133). -/
structure BuiltEvent where
  uid : String
  summary : String
  dtstart : LocalDT
  dtend : LocalDT
  dtstamp : Nat
  location : String
  description : String
  status : Option String
deriving Repr, DecidableEq

/-- Zero-pad to two digits. -/
def pad2 (n : Nat) : String := if n < 10 then "0" ++ toString n else toString n

/-- Zero-pad to four digits. -/
def pad4 (n : Nat) : String :=
  if n < 10 then "000" ++ toString n
  else if n < 100 then "00" ++ toString n
  else if n < 1000 then "0" ++ toString n
  else toString n

/-- Render a local timestamp the way the iCalendar output does. -/
def renderDT (t : LocalDT) : String :=
  pad4 t.year ++ pad2 t.month ++ pad2 t.day ++ "T" ++ pad2 t.hour ++ pad2 t.minute ++ "00"

/-- Canonical deterministic rendering of `cal.to_ical()` for the one-event
calendar built in `build_event`.  The `STATUS` line is emitted exactly when the
status field was set; the `DTSTAMP` line renders the `utcnow()` value. -/
def serializeCal (e : BuiltEvent) : String :=
  "BEGIN:VCALENDAR\n" ++ "PRODID:-//Untis iCloud Sync//DE\n" ++ "VERSION:2.0\n" ++
  "BEGIN:VEVENT\n" ++
  "UID:" ++ e.uid ++ "\n" ++
  "SUMMARY:" ++ e.summary ++ "\n" ++
  "DTSTART;TZID=Europe/Berlin:" ++ renderDT e.dtstart ++ "\n" ++
  "DTEND;TZID=Europe/Berlin:" ++ renderDT e.dtend ++ "\n" ++
  "DTSTAMP:" ++ toString e.dtstamp ++ "\n" ++
  "LOCATION:" ++ e.location ++ "\n" ++
  "DESCRIPTION:" ++ e.description ++ "\n" ++
  (match e.status with
   | some st => "STATUS:" ++ st ++ "\n"
   | none => "") ++
  "END:VEVENT\n" ++ "END:VCALENDAR\n"

/-- Dict indexing `d[k]`: `KeyError` when the key is missing. -/
def getKey {α : Type} (o : Option α) (k : String) : Except String α :=
  match o with
  | some v => .ok v
  | none => .error ("KeyError: " ++ k)

/-- Embeds `build_event` up to serialization: the structured event.  The three
timing fields are direct dict indexing (`lesson["date"]` first, per evaluation
order on line 109), so a missing key raises; `id` is only ever read via `.get`
inside `uid_for`.  `now` is the `datetime.utcnow()` value at call time. -/
def build_event (cfg : Config) (now : Nat) (l : Lesson) : Except String BuiltEvent :=
  match getKey l.date "date", getKey l.startTime "startTime", getKey l.endTime "endTime" with
  | .error e, _, _ => .error e
  | .ok _, .error e, _ => .error e
  | .ok _, .ok _, .error e => .error e
  | .ok dv, .ok sv, .ok ev =>
    .ok
      { uid := uid_for cfg.server l
        summary := if labels l.su = "" then "Unterricht" else labels l.su
        dtstart := to_local dv sv
        dtend := to_local dv ev
        dtstamp := now
        location := labels l.ro
        description := desc_of (labels l.te) (labels l.ro) (labels l.kl)
        status :=
          if ((l.code == some "cancelled") || l.cancelled) && cfg.markCancelled then
            some "CANCELLED"
          else none }

/-- The string the Python `build_event` actually returns:
`cal.to_ical().decode()`. -/
def build_ics (cfg : Config) (now : Nat) (l : Lesson) : Except String String :=
  (build_event cfg now l).map serializeCal

/-- Python dict membership/lookup on an insertion-ordered association list. -/
def lookupD {α : Type} (d : List (String × α)) (k : String) : Option α :=
  (d.find? (fun p => p.1 == k)).map (·.2)

/-- Python dict assignment `d[k] = v`: overwrite in place if the key exists
(keeping its position), otherwise append. -/
def dictInsert {α : Type} (d : List (String × α)) (k : String) (v : α) : List (String × α) :=
  if d.any (fun p => p.1 == k) then
    d.map (fun p => if p.1 == k then (k, v) else p)
  else d ++ [(k, v)]

/-- Build a Python dict from a sequence of key/value pairs (later value wins,
first insertion fixes the position). -/
def buildDict {α : Type} (ps : List (String × α)) : List (String × α) :=
  ps.foldl (fun d p => dictInsert d p.1 p.2) []

/-- Embeds line 175: `wanted = {uid_for(x): x for x in tt}`. -/
def wantedDict (server : String) (tt : List Lesson) : List (String × Lesson) :=
  buildDict (tt.map (fun x => (uid_for server x, x)))

/-- Overwrite the payload stored under a uid (the effect of `obj.save()` after
`obj.data = ics`). -/
def storeUpdate (store : List (String × String)) (k v : String) : List (String × String) :=
  store.map (fun p => if p.1 == k then (k, v) else p)

/-- Embeds the create/update loop of `main` (lines 183–193).  `ex` is the
`existing` dict snapshot from `existing_by_uid` (uid → cached `.data`), `store`
is the evolving server state.  There is no `try/except` around this loop in the
script, so a raising `build_event`, `add_event` or `save` propagates. -/
def cuLoop (cfg : Config) (beh : StoreBehavior) (now : Nat) :
    List (String × Lesson) → Nat → Nat → List (String × String) → List (String × String) →
    Except String (Nat × Nat × List (String × String))
  | [], c, u, _ex, store => .ok (c, u, store)
  | (uid, lesson) :: rest, c, u, ex, store =>
    match build_ics cfg now lesson with
    | .error e => .error e
    | .ok ics =>
      match lookupD ex uid with
      | some old =>
        if ics = old then cuLoop cfg beh now rest c u ex store
        else if beh.saveFails uid then .error ("save failed: " ++ uid)
        else cuLoop cfg beh now rest c (u + 1) ex (storeUpdate store uid ics)
      | none =>
        if beh.addFails uid then .error ("add_event failed: " ++ uid)
        else cuLoop cfg beh now rest (c + 1) u ex (store ++ [(uid, ics)])

/-- Embeds Python's `s.startswith(p)` (structurally, over the character
lists). -/
def strStartsWith (s p : String) : Bool := List.isPrefixOf p.data s.data

/-- Embeds the stale-deletion loop of `main` (lines 196–202): iterate the
`existing` snapshot; engine-owned uids absent from `wanted` are deleted, each
delete wrapped in `try/except Exception: pass`. -/
def delLoop (beh : StoreBehavior) (wanted : List (String × Lesson)) :
    List (String × String) → Nat → List (String × String) → Nat × List (String × String)
  | [], d, store => (d, store)
  | (uid, _) :: rest, d, store =>
    if strStartsWith uid "untis-" && (lookupD wanted uid).isNone then
      if beh.deleteFails uid then delLoop beh wanted rest d store
      else delLoop beh wanted rest (d + 1) (store.filter (fun p => p.1 != uid))
    else delLoop beh wanted rest d store

/-- The counts a pass reports and the resulting store contents. -/
structure PassResult where
  created : Nat
  updated : Nat
  deleted : Nat
  final : List (String × String)
deriving Repr, DecidableEq

/-- Embeds one reconciliation pass of `main` (lines 175–204): build `wanted`,
run the create/update loop over it against the `existing` snapshot, then — only
when `DELETE_MISSING` — the stale-deletion loop. -/
def syncPass (cfg : Config) (beh : StoreBehavior) (now : Nat) (tt : List Lesson)
    (existing : List (String × String)) : Except String PassResult :=
  match cuLoop cfg beh now (wantedDict cfg.server tt) 0 0 existing existing with
  | .error e => .error e
  | .ok (c, u, store) =>
    let del := if cfg.deleteMissing then
        delLoop beh (wantedDict cfg.server tt) existing 0 store
      else (0, store)
    .ok { created := c, updated := u, deleted := del.1, final := del.2 }

/-- A JSON-RPC response body: the script only ever indexes `["result"]`;
`rpcError` mirrors the `error` member a rejecting server would send. -/
structure RpcResponse where
  result : Option (List Lesson)
  rpcError : Option String

/-- Embeds `fetch_tt` (lines 84–90): a single POST of method `getTimetable`,
then `r.json()["result"]` — a `KeyError` when the server rejected the method.
The first component records the RPC method names actually invoked. -/
def fetch_tt (post : String → RpcResponse) : List String × Except String (List Lesson) :=
  (["getTimetable"],
    match (post "getTimetable").result with
    | some tt => .ok tt
    | none => .error "KeyError: result")

/-- The secrets `main` checks with `require_env` before any network traffic. -/
def requiredNames : List String :=
  ["UNTIS_SERVER", "UNTIS_SCHOOL", "UNTIS_USER", "UNTIS_PASS", "ICLOUD_USER", "ICLOUD_PASS"]

/-- Python truthiness of `os.getenv(name)`: unset or empty is falsy. -/
def envTruthy (env : String → Option String) (n : String) : Bool :=
  match env n with
  | some s => s != ""
  | none => false

/-- Embeds `main`'s pre-flight `require_env` loop plus the `__main__` handler:
the first falsy required name triggers `sys.exit(2)` (a `SystemExit`, which the
`except Exception` handler does not catch) before any network call; otherwise
the body runs — `body.1` is the network-call trace the body performs, `body.2`
its outcome — and an unhandled exception is printed and mapped to exit code 1.
Returns (exit code, network calls performed). -/
def runProgram (env : String → Option String)
    (body : List String × Except String PassResult) : Nat × List String :=
  match requiredNames.find? (fun n => !envTruthy env n) with
  | some _ => (2, [])
  | none =>
    match body.2 with
    | .ok _ => (0, body.1)
    | .error _ => (1, body.1)

/-- Drop the status field of a built event, keeping everything else. -/
def eraseStatus (e : BuiltEvent) : BuiltEvent := { e with status := none }

/-! Helper lemmas about strings, association lists and the loops. -/

theorem strExt {a b : String} (h : a.data = b.data) : a = b := by
  cases a
  cases b
  exact congrArg String.mk h

theorem data_ne_nil {s : String} (h : s ≠ "") : s.data ≠ [] := by
  intro hd
  exact h (strExt hd)

theorem lookupD_eq_none_iff {α : Type} (d : List (String × α)) (k : String) :
    lookupD d k = none ↔ ∀ p ∈ d, p.1 ≠ k := by
  unfold lookupD
  rw [Option.map_eq_none', List.find?_eq_none]
  constructor
  · intro h p hp
    simpa using h p hp
  · intro h p hp
    simpa using h p hp

theorem lookupD_isSome_iff {α : Type} (d : List (String × α)) (k : String) :
    (lookupD d k).isSome = true ↔ ∃ p ∈ d, p.1 = k := by
  unfold lookupD
  rw [Option.isSome_map', List.find?_isSome]
  simp

/-! Concrete instances used by counterexamples and witnesses. -/

/-- Example configuration with both toggles at their defaults (`true`). -/
def exCfg : Config := { server := "srv", markCancelled := true, deleteMissing := true }

/-- Store behavior in which no CalDAV call fails. -/
def behOk : StoreBehavior := ⟨fun _ => false, fun _ => false, fun _ => false⟩

/-- A well-formed example lesson. -/
def exLesson : Lesson :=
  { id := some 1, date := some 20240315, startTime := some 800, endTime := some 845,
    su := [⟨some "Mathe", none⟩], te := [⟨none, some "MUE"⟩], ro := [⟨some "101", none⟩],
    kl := [], code := none, cancelled := false }

/-- The store contents after a first, fully successful pass over `[exLesson]`
starting from an empty store, run at `utcnow = 0`. -/
def exFirstPassStore : List (String × String) :=
  match syncPass exCfg behOk 0 [exLesson] [] with
  | .ok r => r.final
  | .error _ => []

set_option maxRecDepth 100000

/-- C1: the claim is the spec's intent and the code violates it.  `build_event`
stamps `datetime.utcnow()` into the event (line 129) and `main` compares the
full serialized payload against the stored one (line 187), so the generation
timestamp IS part of the compared payload.  Run at `utcnow = 0`, a first pass
over one lesson creates one event; a second pass over the same lesson set and
the resulting store, at `utcnow = 1`, reports `updated = 1` instead of
`created = updated = deleted = 0`: every pass rewrites every event.  The two
builds differ only in the `dtstamp` field. -/
theorem dtstamp_breaks_idempotence :
    (syncPass exCfg behOk 0 [exLesson] []).map
      (fun r => (r.created, r.updated, r.deleted)) = .ok (1, 0, 0) ∧
    (syncPass exCfg behOk 0 [exLesson] []).map (fun r => r.final) = .ok exFirstPassStore ∧
    (syncPass exCfg behOk 1 [exLesson] exFirstPassStore).map
      (fun r => (r.created, r.updated, r.deleted)) = .ok (0, 1, 0) ∧
    (build_ics exCfg 0 exLesson).toOption ≠ (build_ics exCfg 1 exLesson).toOption ∧
    (build_event exCfg 0 exLesson).map (fun e => { e with dtstamp := 0 }) =
      (build_event exCfg 1 exLesson).map (fun e => { e with dtstamp := 0 }) :=
  ⟨by rfl, by rfl, by rfl, by decide, by rfl⟩

/-- A lesson with an id but a missing `startTime` key. -/
def lessonNoStart : Lesson := { exLesson with id := some 2, startTime := none }

/-- A lesson with timing keys but no id. -/
def lessonNoId : Lesson := { exLesson with id := none }

/-- C10: the Event Builder is not total over lesson records.  A missing
`date`, `startTime` or `endTime` key makes `build_event` raise (`KeyError`
through direct indexing), while a missing `id` is read defensively via `.get`
and merely rendered as `None` inside the uid; and because the create/update
loop of `main` has no exception handling, an id-bearing lesson with a missing
timing field makes the whole sync pass raise. -/
theorem build_event_not_total (cfg : Config) (now : Nat) (l : Lesson) :
    ((l.date = none ∨ l.startTime = none ∨ l.endTime = none) →
      ∃ e, build_event cfg now l = .error e) ∧
    (l.id = none → ∀ dv sv ev, l.date = some dv → l.startTime = some sv →
      l.endTime = some ev →
      ∃ b, build_event cfg now l = .ok b ∧ b.uid = "untis-None@" ++ cfg.server) ∧
    (∀ beh existing tt u rest,
      (l.date = none ∨ l.startTime = none ∨ l.endTime = none) →
      wantedDict cfg.server tt = (u, l) :: rest →
      ∃ e, syncPass cfg beh now tt existing = .error e) := by
  have herr : (l.date = none ∨ l.startTime = none ∨ l.endTime = none) →
      ∃ e, build_event cfg now l = .error e := by
    intro h
    cases hd : l.date with
    | none => exact ⟨"KeyError: date", by simp [build_event, getKey, hd]⟩
    | some dv =>
      cases hs : l.startTime with
      | none => exact ⟨"KeyError: startTime", by simp [build_event, getKey, hd, hs]⟩
      | some sv =>
        cases he : l.endTime with
        | none => exact ⟨"KeyError: endTime", by simp [build_event, getKey, hd, hs, he]⟩
        | some ev =>
          rcases h with h | h | h <;> simp [hd, hs, he] at h
  refine ⟨herr, ?_, ?_⟩
  · intro hid dv sv ev hd hs he
    cases hbe : build_event cfg now l with
    | error e => simp [build_event, getKey, hd, hs, he] at hbe
    | ok b =>
      refine ⟨b, rfl, ?_⟩
      simp [build_event, getKey, hd, hs, he] at hbe
      rw [← hbe]
      unfold uid_for idRepr
      rw [hid]
      rw [show ("untis-" ++ "None" ++ "@" : String) = "untis-None@" from by decide]
  · intro beh existing tt u rest h hw
    obtain ⟨e, he⟩ := herr h
    refine ⟨e, ?_⟩
    simp [syncPass, hw, cuLoop, build_ics, he, Except.map]

/-- C10 witness: `lessonNoStart` makes the builder and the pass raise;
`lessonNoId` still builds, with `None` inside the uid. -/
theorem build_event_not_total_witness :
    (∃ e, build_event exCfg 0 lessonNoStart = .error e) ∧
    (∃ b, build_event exCfg 0 lessonNoId = .ok b ∧ b.uid = "untis-None@" ++ exCfg.server) ∧
    (∃ e, syncPass exCfg behOk 0 [lessonNoStart] [] = .error e) :=
  ⟨(build_event_not_total exCfg 0 lessonNoStart).1 (Or.inr (Or.inl rfl)),
   (build_event_not_total exCfg 0 lessonNoId).2.1 rfl 20240315 800 845 rfl rfl rfl,
   (build_event_not_total exCfg 0 lessonNoStart).2.2 behOk [] [lessonNoStart]
     "untis-2@srv" [] (Or.inr (Or.inl rfl)) (by rfl)⟩

/-- C8: the built event carries status `CANCELLED` iff the lesson is cancelled
(explicit flag or status code `"cancelled"`, line 118) and `MARK_CANCELLED` is
enabled (lines 132–133); the status field is never anything else, so in every
other case the serialized event has no `STATUS` line; and toggling
`MARK_CANCELLED` changes no field other than status. -/
theorem cancellation_marking (cfg : Config) (now : Nat) (l : Lesson) (e : BuiltEvent)
    (h : build_event cfg now l = .ok e) :
    (e.status = some "CANCELLED" ↔
      ((l.code = some "cancelled" ∨ l.cancelled = true) ∧ cfg.markCancelled = true)) ∧
    (e.status = none ∨ e.status = some "CANCELLED") ∧
    (∀ b b' : Bool,
      (build_event { cfg with markCancelled := b } now l).map eraseStatus =
        (build_event { cfg with markCancelled := b' } now l).map eraseStatus) := by
  cases hd : l.date with
  | none => simp [build_event, getKey, hd] at h
  | some dv =>
  cases hs : l.startTime with
  | none => simp [build_event, getKey, hd, hs] at h
  | some sv =>
  cases he : l.endTime with
  | none => simp [build_event, getKey, hd, hs, he] at h
  | some ev =>
  simp [build_event, getKey, hd, hs, he] at h
  refine ⟨?_, ?_, ?_⟩
  · rw [← h]
    by_cases hc : (l.code = some "cancelled" ∨ l.cancelled = true) ∧ cfg.markCancelled = true
    · simp [hc]
    · simp [hc]
  · rw [← h]
    by_cases hc : (l.code = some "cancelled" ∨ l.cancelled = true) ∧ cfg.markCancelled = true
    · simp [hc]
    · simp [hc]
  · intro b b'
    simp [build_event, getKey, hd, hs, he, eraseStatus, Except.map]

/-- A cancelled lesson (status code `"cancelled"`). -/
def lessonCan : Lesson := { exLesson with id := some 3, code := some "cancelled" }

/-- The event built from `lessonCan` with marking enabled. -/
def exCanEvent : BuiltEvent :=
  match build_event exCfg 0 lessonCan with
  | .ok e => e
  | .error _ => ⟨"", "", ⟨0, 0, 0, 0, 0⟩, ⟨0, 0, 0, 0, 0⟩, 0, "", "", none⟩

/-- C8 witness: instantiation at a concretely cancelled lesson. -/
theorem cancellation_marking_witness :
    (exCanEvent.status = some "CANCELLED" ↔
      ((lessonCan.code = some "cancelled" ∨ lessonCan.cancelled = true) ∧
        exCfg.markCancelled = true)) ∧
    (exCanEvent.status = none ∨ exCanEvent.status = some "CANCELLED") ∧
    (∀ b b' : Bool,
      (build_event { exCfg with markCancelled := b } 0 lessonCan).map eraseStatus =
        (build_event { exCfg with markCancelled := b' } 0 lessonCan).map eraseStatus) :=
  cancellation_marking exCfg 0 lessonCan exCanEvent (by rfl)

theorem lookupD_isSome_iff_mem_keys {α : Type} (d : List (String × α)) (k : String) :
    (lookupD d k).isSome = true ↔ k ∈ d.map Prod.fst := by
  rw [lookupD_isSome_iff, List.mem_map]

theorem mem_keys_dictInsert {α : Type} (d : List (String × α)) (k' k : String) (v : α) :
    k ∈ (dictInsert d k' v).map Prod.fst ↔ k = k' ∨ k ∈ d.map Prod.fst := by
  unfold dictInsert
  by_cases ha : d.any (fun p => p.1 == k') = true
  · rw [if_pos ha]
    have hmap : (d.map (fun p => if p.1 == k' then (k', v) else p)).map Prod.fst =
        d.map Prod.fst := by
      rw [List.map_map]
      apply List.map_congr_left
      intro p hp
      by_cases hpk : p.1 = k'
      · simp [hpk]
      · simp [hpk]
    rw [hmap]
    constructor
    · exact Or.inr
    · rintro (rfl | hk)
      · rw [List.any_eq_true] at ha
        obtain ⟨p, hp, hpk⟩ := ha
        rw [beq_iff_eq] at hpk
        exact List.mem_map.mpr ⟨p, hp, hpk⟩
      · exact hk
  · rw [if_neg ha, List.map_append]
    simp [List.mem_append, or_comm, eq_comm]

theorem mem_keys_buildDict_of {α : Type} :
    ∀ (ps : List (String × α)) (d : List (String × α)) (k : String),
      (k ∈ ps.map Prod.fst ∨ k ∈ d.map Prod.fst) →
      k ∈ (ps.foldl (fun a p => dictInsert a p.1 p.2) d).map Prod.fst := by
  intro ps
  induction ps with
  | nil =>
    intro d k h
    rcases h with h | h
    · simp at h
    · simpa using h
  | cons q ps ih =>
    intro d k h
    rw [List.foldl_cons]
    apply ih
    rcases h with h | h
    · rw [List.map_cons, List.mem_cons] at h
      rcases h with h | h
      · exact Or.inr ((mem_keys_dictInsert d q.1 k q.2).mpr (Or.inl h))
      · exact Or.inl h
    · exact Or.inr ((mem_keys_dictInsert d q.1 k q.2).mpr (Or.inr h))

/-- C3 counterexample: `main` (line 175) performs no filtering at all.  An
id-less lesson lands in the `wanted` dict under the uid `untis-None@srv`, and
the Event Builder is invoked on it (the pass creates an event from it). -/
theorem idless_lesson_not_filtered :
    lookupD (wantedDict exCfg.server [lessonNoId]) "untis-None@srv" = some lessonNoId ∧
    (syncPass exCfg behOk 0 [lessonNoId] []).map (fun r => r.created) = .ok 1 :=
  ⟨by rfl, by rfl⟩

/-- C3 amended: no lesson is filtered out before the Event Builder runs.  A
lesson missing an identifying id is included in the wanted map, under the uid
whose id segment is the rendering `None` of the missing value; it is the
builder's defensive `.get` — not any Reconciler filter — that keeps the pass
from crashing on the missing id. -/
theorem idless_lesson_in_wanted (server : String) (tt : List Lesson) (l : Lesson)
    (hid : l.id = none) (hmem : l ∈ tt) :
    uid_for server l = "untis-None@" ++ server ∧
    (lookupD (wantedDict server tt) ("untis-None@" ++ server)).isSome = true := by
  have huid : uid_for server l = "untis-None@" ++ server := by
    unfold uid_for idRepr
    rw [hid]
    rw [show ("untis-" ++ "None" ++ "@" : String) = "untis-None@" from by decide]
  refine ⟨huid, ?_⟩
  rw [lookupD_isSome_iff_mem_keys]
  unfold wantedDict buildDict
  apply mem_keys_buildDict_of
  left
  rw [List.map_map, List.mem_map]
  exact ⟨l, hmem, huid⟩

/-- C3 witness: instantiation at the concrete id-less lesson. -/
theorem idless_lesson_in_wanted_witness :
    uid_for "srv" lessonNoId = "untis-None@" ++ "srv" ∧
    (lookupD (wantedDict "srv" [lessonNoId]) ("untis-None@" ++ "srv")).isSome = true :=
  idless_lesson_in_wanted "srv" [lessonNoId] lessonNoId rfl (List.mem_singleton.mpr rfl)

theorem mem_storeUpdate {store : List (String × String)} {uid data : String} (k v : String)
    (hm : (uid, data) ∈ store) : ∃ d', (uid, d') ∈ storeUpdate store k v := by
  unfold storeUpdate
  by_cases hk : uid = k
  · refine ⟨v, ?_⟩
    have h := List.mem_map_of_mem (fun p => if p.1 == k then (k, v) else p) hm
    simpa [hk] using h
  · refine ⟨data, ?_⟩
    have h := List.mem_map_of_mem (fun p => if p.1 == k then (k, v) else p) hm
    simpa [hk] using h

theorem mem_storeUpdate_of_ne {store : List (String × String)} {uid data : String} (k v : String)
    (hne : uid ≠ k) (hm : (uid, data) ∈ store) : (uid, data) ∈ storeUpdate store k v := by
  unfold storeUpdate
  have h := List.mem_map_of_mem (fun p => if p.1 == k then (k, v) else p) hm
  simpa [hne] using h

theorem cuLoop_preserves_mem (cfg : Config) (beh : StoreBehavior) (now : Nat) :
    ∀ (w : List (String × Lesson)) (c u : Nat) (ex store : List (String × String))
      (c' u' : Nat) (st' : List (String × String)),
      cuLoop cfg beh now w c u ex store = .ok (c', u', st') →
      ∀ uid data, (uid, data) ∈ store → ∃ d', (uid, d') ∈ st' := by
  intro w
  induction w with
  | nil =>
    intro c u ex store c' u' st' h uid data hm
    simp only [cuLoop, Except.ok.injEq, Prod.mk.injEq] at h
    exact ⟨data, h.2.2 ▸ hm⟩
  | cons q rest ih =>
    obtain ⟨u0, les⟩ := q
    intro c u ex store c' u' st' h uid data hm
    cases hb : build_ics cfg now les with
    | error e => simp [cuLoop, hb] at h
    | ok ics =>
      cases hl : lookupD ex u0 with
      | some old =>
        simp only [cuLoop, hb, hl] at h
        split at h
        · exact ih _ _ _ _ _ _ _ h uid data hm
        · split at h
          · simp at h
          · obtain ⟨d', hd'⟩ := mem_storeUpdate u0 ics hm
            exact ih _ _ _ _ _ _ _ h uid d' hd'
      | none =>
        simp only [cuLoop, hb, hl] at h
        split at h
        · simp at h
        · exact ih _ _ _ _ _ _ _ h uid data (List.mem_append_left _ hm)

theorem cuLoop_untouched (cfg : Config) (beh : StoreBehavior) (now : Nat) :
    ∀ (w : List (String × Lesson)) (c u : Nat) (ex store : List (String × String))
      (c' u' : Nat) (st' : List (String × String)),
      cuLoop cfg beh now w c u ex store = .ok (c', u', st') →
      ∀ uid data, (uid, data) ∈ store → (∀ p ∈ w, p.1 ≠ uid) → (uid, data) ∈ st' := by
  intro w
  induction w with
  | nil =>
    intro c u ex store c' u' st' h uid data hm _
    simp only [cuLoop, Except.ok.injEq, Prod.mk.injEq] at h
    exact h.2.2 ▸ hm
  | cons q rest ih =>
    obtain ⟨u0, les⟩ := q
    intro c u ex store c' u' st' h uid data hm hw
    have hu0 : u0 ≠ uid := hw (u0, les) (List.mem_cons_self _ _)
    have hwrest : ∀ p ∈ rest, p.1 ≠ uid := fun p hp => hw p (List.mem_cons_of_mem _ hp)
    cases hb : build_ics cfg now les with
    | error e => simp [cuLoop, hb] at h
    | ok ics =>
      cases hl : lookupD ex u0 with
      | some old =>
        simp only [cuLoop, hb, hl] at h
        split at h
        · exact ih _ _ _ _ _ _ _ h uid data hm hwrest
        · split at h
          · simp at h
          · exact ih _ _ _ _ _ _ _ h uid data
              (mem_storeUpdate_of_ne u0 ics (Ne.symm hu0) hm) hwrest
      | none =>
        simp only [cuLoop, hb, hl] at h
        split at h
        · simp at h
        · exact ih _ _ _ _ _ _ _ h uid data (List.mem_append_left _ hm) hwrest

theorem delLoop_keeps (beh : StoreBehavior) (w : List (String × Lesson)) :
    ∀ (ex : List (String × String)) (d : Nat) (store : List (String × String))
      (uid data : String),
      (uid, data) ∈ store → strStartsWith uid "untis-" = false →
      (uid, data) ∈ (delLoop beh w ex d store).2 := by
  intro ex
  induction ex with
  | nil =>
    intro d store uid data hm _
    simpa [delLoop] using hm
  | cons q rest ih =>
    obtain ⟨u0, dat⟩ := q
    intro d store uid data hm hpre
    simp only [delLoop]
    split
    · next hcond =>
      have hu0 : strStartsWith u0 "untis-" = true := (Bool.and_eq_true _ _ ▸ hcond).1
      split
      · exact ih _ _ uid data hm hpre
      · apply ih
        · refine List.mem_filter.mpr ⟨hm, ?_⟩
          change (uid != u0) = true
          rw [bne_iff_ne]
          intro hEq
          rw [hEq] at hpre
          simp [hpre] at hu0
        · exact hpre
    · exact ih _ _ uid data hm hpre

/-- C2: deletion scoping.  An event whose uid lacks the `untis-` namespace is
never deleted by a pass (it survives in the final store, whatever the
delete-stale toggle and whatever the wanted set, per the uid check on line
197); and any event absent from `wanted` is left byte-identical in place when
`DELETE_MISSING` is disabled, so an engine-owned stale event is deleted only
when the toggle is enabled. -/
theorem deletion_scoping (cfg : Config) (beh : StoreBehavior) (now : Nat) (tt : List Lesson)
    (existing : List (String × String)) (r : PassResult)
    (hrun : syncPass cfg beh now tt existing = .ok r) (uid data : String)
    (hmem : (uid, data) ∈ existing) :
    (strStartsWith uid "untis-" = false → ∃ d', (uid, d') ∈ r.final) ∧
    (lookupD (wantedDict cfg.server tt) uid = none → cfg.deleteMissing = false →
      (uid, data) ∈ r.final) := by
  unfold syncPass at hrun
  cases hcu : cuLoop cfg beh now (wantedDict cfg.server tt) 0 0 existing existing with
  | error e => rw [hcu] at hrun; simp at hrun
  | ok cus =>
    obtain ⟨c, u, store⟩ := cus
    rw [hcu] at hrun
    simp only [Except.ok.injEq] at hrun
    subst hrun
    constructor
    · intro hpre
      obtain ⟨d', hd'⟩ := cuLoop_preserves_mem cfg beh now _ _ _ _ _ _ _ _ hcu uid data hmem
      by_cases hdm : cfg.deleteMissing = true
      · simp only [hdm, if_true]
        exact ⟨d', delLoop_keeps beh _ existing 0 store uid d' hd' hpre⟩
      · simp only [Bool.not_eq_true] at hdm
        simp only [hdm]
        exact ⟨d', by simpa using hd'⟩
    · intro hlk hdm
      have hst : (uid, data) ∈ store :=
        cuLoop_untouched cfg beh now _ _ _ _ _ _ _ _ hcu uid data hmem
          ((lookupD_eq_none_iff _ _).mp hlk)
      simp only [hdm]
      simpa using hst

/-- Configuration with stale-event deletion disabled. -/
def cfgKeep : Config := { server := "srv", markCancelled := true, deleteMissing := false }

/-- A store holding one foreign event and one engine-owned event. -/
def exStore2 : List (String × String) := [("other@x", "d"), ("untis-99@srv", "e")]

/-- The result of a pass with an empty lesson set over `exStore2`. -/
def exKeepResult : PassResult :=
  match syncPass cfgKeep behOk 0 [] exStore2 with
  | .ok r => r
  | .error _ => ⟨0, 0, 0, []⟩

/-- C2 witness: the foreign event survives, and with the toggle off the stale
engine-owned event survives untouched as well. -/
theorem deletion_scoping_witness :
    (∃ d', ("other@x", d') ∈ exKeepResult.final) ∧
    ("untis-99@srv", "e") ∈ exKeepResult.final :=
  ⟨(deletion_scoping cfgKeep behOk 0 [] exStore2 exKeepResult (by rfl) "other@x" "d"
      (by decide)).1 (by decide),
   (deletion_scoping cfgKeep behOk 0 [] exStore2 exKeepResult (by rfl) "untis-99@srv" "e"
      (by decide)).2 (by rfl) (by rfl)⟩

theorem delLoop_count (beh : StoreBehavior) (w : List (String × Lesson)) :
    ∀ (ex : List (String × String)) (d : Nat) (store : List (String × String)),
      (delLoop beh w ex d store).1 =
        d + (ex.filter (fun p =>
          strStartsWith p.1 "untis-" && (lookupD w p.1).isNone &&
            !beh.deleteFails p.1)).length := by
  intro ex
  induction ex with
  | nil => intro d store; simp [delLoop]
  | cons q rest ih =>
    obtain ⟨u0, dat⟩ := q
    intro d store
    simp only [delLoop]
    by_cases hc : (strStartsWith u0 "untis-" && (lookupD w u0).isNone) = true
    · rw [if_pos hc]
      by_cases hf : beh.deleteFails u0 = true
      · rw [if_pos hf, ih]
        rw [List.filter_cons]
        simp [hc, hf]
      · rw [if_neg hf, ih]
        rw [List.filter_cons]
        simp only [hc, hf]
        simp
        omega
    · rw [if_neg hc, ih]
      have hcf : (strStartsWith u0 "untis-" && (lookupD w u0).isNone) = false :=
        Bool.eq_false_iff.mpr hc
      rw [List.filter_cons]
      simp [hcf]

/-- C5: per-item isolation of delete failures.  Provided the create/update
loop succeeded, the pass always completes with `.ok` — every `obj.delete()` is
wrapped in `try/except: pass` — the created/updated counts are retained, and
the reported `deleted` equals exactly the number of engine-owned stale events
whose delete call succeeded. -/
theorem delete_failures_isolated (cfg : Config) (beh : StoreBehavior) (now : Nat)
    (tt : List Lesson) (existing : List (String × String)) (c u : Nat)
    (store : List (String × String))
    (hdm : cfg.deleteMissing = true)
    (hcu : cuLoop cfg beh now (wantedDict cfg.server tt) 0 0 existing existing =
      .ok (c, u, store)) :
    ∃ r, syncPass cfg beh now tt existing = .ok r ∧ r.created = c ∧ r.updated = u ∧
      r.deleted = (existing.filter (fun p =>
        strStartsWith p.1 "untis-" && (lookupD (wantedDict cfg.server tt) p.1).isNone &&
          !beh.deleteFails p.1)).length := by
  have hs : syncPass cfg beh now tt existing =
      .ok ⟨c, u, (delLoop beh (wantedDict cfg.server tt) existing 0 store).1,
        (delLoop beh (wantedDict cfg.server tt) existing 0 store).2⟩ := by
    unfold syncPass
    rw [hcu]
    simp [hdm]
  refine ⟨_, hs, rfl, rfl, ?_⟩
  show (delLoop beh (wantedDict cfg.server tt) existing 0 store).1 = _
  rw [delLoop_count]
  exact Nat.zero_add _

/-- Store behavior where exactly the delete of `untis-3@srv` raises. -/
def behDel3 : StoreBehavior :=
  ⟨fun _ => false, fun _ => false, fun uid => uid == "untis-3@srv"⟩

/-- Five stale engine-owned events. -/
def exStale5 : List (String × String) :=
  [("untis-1@srv", "a"), ("untis-2@srv", "b"), ("untis-3@srv", "c"),
   ("untis-4@srv", "d"), ("untis-5@srv", "e")]

/-- C5 witness: five stale engine-owned events, one failing delete — the pass
completes and reports `deleted = 4`. -/
theorem delete_failures_isolated_witness :
    ∃ r, syncPass exCfg behDel3 0 [] exStale5 = .ok r ∧ r.created = 0 ∧ r.updated = 0 ∧
      r.deleted = 4 := by
  obtain ⟨r, h1, h2, h3, h4⟩ :=
    delete_failures_isolated exCfg behDel3 0 [] exStale5 0 0 exStale5 (by rfl) (by rfl)
  refine ⟨r, h1, h2, h3, ?_⟩
  rw [h4]
  decide

/-- Store behavior in which every `cal.add_event` call raises. -/
def behAddFail : StoreBehavior := ⟨fun _ => true, fun _ => false, fun _ => false⟩

/-- A second well-formed lesson, distinct uid from `exLesson`. -/
def exLesson2 : Lesson := { exLesson with id := some 2 }

/-- C4 counterexample: with two wanted items against an empty store and a
failing `add_event`, the pass does NOT attempt the remaining item — the loop
on lines 183–193 has no `try/except`, so the exception from the very first
create aborts it (the error names the first uid). -/
theorem create_failure_aborts_pass :
    syncPass exCfg behAddFail 0 [exLesson, exLesson2] [] =
      .error ("add_event failed: untis-1@srv") := by rfl

theorem cuLoop_append (cfg : Config) (beh : StoreBehavior) (now : Nat) :
    ∀ (w1 w2 : List (String × Lesson)) (c u : Nat) (ex store : List (String × String))
      (c' u' : Nat) (st' : List (String × String)),
      cuLoop cfg beh now w1 c u ex store = .ok (c', u', st') →
      cuLoop cfg beh now (w1 ++ w2) c u ex store = cuLoop cfg beh now w2 c' u' ex st' := by
  intro w1
  induction w1 with
  | nil =>
    intro w2 c u ex store c' u' st' h
    simp only [cuLoop, Except.ok.injEq, Prod.mk.injEq] at h
    obtain ⟨hc, hu, hst⟩ := h
    subst hc
    subst hu
    subst hst
    rw [List.nil_append]
  | cons q rest ih =>
    obtain ⟨u0, les⟩ := q
    intro w2 c u ex store c' u' st' h
    rw [List.cons_append]
    cases hb : build_ics cfg now les with
    | error e => simp [cuLoop, hb] at h
    | ok ics =>
      cases hl : lookupD ex u0 with
      | some old =>
        by_cases heq : ics = old
        · simp only [cuLoop, hb, hl, if_pos heq] at h ⊢
          exact ih _ _ _ _ _ _ _ _ h
        · by_cases hs : beh.saveFails u0 = true
          · simp only [cuLoop, hb, hl, if_neg heq, if_pos hs] at h
            exact absurd h (by simp)
          · simp only [cuLoop, hb, hl, if_neg heq, if_neg hs] at h ⊢
            exact ih _ _ _ _ _ _ _ _ h
      | none =>
        by_cases ha : beh.addFails u0 = true
        · simp only [cuLoop, hb, hl, if_pos ha] at h
          exact absurd h (by simp)
        · simp only [cuLoop, hb, hl, if_neg ha] at h ⊢
          exact ih _ _ _ _ _ _ _ _ h

/-- C4 amended: create/update calls are NOT isolated per item.  Wherever the
failing item sits in the wanted sequence — after the earlier items were
processed successfully — a raising `cal.add_event` (new uid) or a raising
`obj.save()` (known uid whose stored payload differs) makes the whole pass
raise instead of attempting the remaining wanted items; only the delete loop
is per-item isolated. -/
theorem create_update_failure_propagates (cfg : Config) (beh : StoreBehavior) (now : Nat)
    (tt : List Lesson) (existing : List (String × String))
    (w1 : List (String × Lesson)) (u : String) (l : Lesson) (w2 : List (String × Lesson))
    (c u' : Nat) (store : List (String × String)) (ics : String)
    (hw : wantedDict cfg.server tt = w1 ++ (u, l) :: w2)
    (hpre : cuLoop cfg beh now w1 0 0 existing existing = .ok (c, u', store))
    (hb : build_ics cfg now l = .ok ics)
    (hfail : (lookupD existing u = none ∧ beh.addFails u = true) ∨
      (∃ old, lookupD existing u = some old ∧ ics ≠ old ∧ beh.saveFails u = true)) :
    ∃ e, syncPass cfg beh now tt existing = .error e := by
  have hcu : cuLoop cfg beh now (wantedDict cfg.server tt) 0 0 existing existing =
      cuLoop cfg beh now ((u, l) :: w2) c u' existing store := by
    rw [hw]
    exact cuLoop_append cfg beh now w1 ((u, l) :: w2) 0 0 existing existing c u' store hpre
  rcases hfail with ⟨hl, ha⟩ | ⟨old, ho, hne, hs⟩
  · refine ⟨"add_event failed: " ++ u, ?_⟩
    unfold syncPass
    rw [hcu]
    simp [cuLoop, hb, hl, ha]
  · refine ⟨"save failed: " ++ u, ?_⟩
    unfold syncPass
    rw [hcu]
    simp [cuLoop, hb, ho, hne, hs]

/-- Store behavior in which exactly the `save` of `untis-2@srv` raises. -/
def behSave2 : StoreBehavior :=
  ⟨fun _ => false, fun uid => uid == "untis-2@srv", fun _ => false⟩

/-- A store already holding a stale payload for `untis-2@srv`. -/
def exStoreStale : List (String × String) := [("untis-2@srv", "stale")]

/-- The serialization of `exLesson2` at `utcnow = 0`. -/
def exIcs2 : String :=
  match build_ics exCfg 0 exLesson2 with
  | .ok s => s
  | .error _ => ""

/-- The loop state after successfully processing the first wanted item. -/
def exSaveState : Nat × Nat × List (String × String) :=
  match cuLoop exCfg behSave2 0 [("untis-1@srv", exLesson)] 0 0 exStoreStale exStoreStale with
  | .ok s => s
  | .error _ => (0, 0, [])

/-- C4 witness: a failing `save` on the SECOND wanted item — after the first
item was created successfully — aborts the pass. -/
theorem create_update_failure_propagates_witness :
    ∃ e, syncPass exCfg behSave2 0 [exLesson, exLesson2] exStoreStale = .error e :=
  create_update_failure_propagates exCfg behSave2 0 [exLesson, exLesson2] exStoreStale
    [("untis-1@srv", exLesson)] "untis-2@srv" exLesson2 []
    exSaveState.1 exSaveState.2.1 exSaveState.2.2 exIcs2
    (by rfl) (by rfl) (by rfl)
    (Or.inr ⟨"stale", by rfl, by decide, by rfl⟩)

/-- A server that rejects the method name `getTimetable` but would accept any
other (e.g. legacy) method name. -/
def ttServerRejects : String → RpcResponse := fun m =>
  if m = "getTimetable" then { result := none, rpcError := some "method not found" }
  else { result := some [], rpcError := none }

/-- C6 counterexample: against a server that rejects `getTimetable` but would
accept a legacy method name, `fetch_tt` makes exactly one RPC call and fails
with the `KeyError` from `r.json()["result"]` — no automatic retry with a
legacy method name exists anywhere in the script. -/
theorem no_legacy_method_retry :
    (fetch_tt ttServerRejects).1 = ["getTimetable"] ∧
    (fetch_tt ttServerRejects).2 = .error "KeyError: result" ∧
    (ttServerRejects "getTimetable2017").result.isSome = true :=
  ⟨rfl, rfl, rfl⟩

/-- C6 amended: a method-version rejection is not recovered.  `fetch_tt`
invokes exactly the single method name `getTimetable`; when the response
carries no `result` member, the call raises immediately (propagating as a
runtime failure via the top-level handler), with no second attempt. -/
theorem method_error_propagates (post : String → RpcResponse)
    (h : (post "getTimetable").result = none) :
    (fetch_tt post).1 = ["getTimetable"] ∧
    (fetch_tt post).2 = .error "KeyError: result" :=
  ⟨rfl, by simp [fetch_tt, h]⟩

/-- C6 witness: instantiation of the amended claim at the rejecting server. -/
theorem method_error_propagates_witness :
    (fetch_tt ttServerRejects).1 = ["getTimetable"] ∧
    (fetch_tt ttServerRejects).2 = .error "KeyError: result" :=
  method_error_propagates ttServerRejects (by rfl)

/-- C9: exit-code discipline.  If any required setting is falsy, the program
exits with the reserved code 2 before performing a single network call; if the
configuration is complete and the body raises, the `__main__` handler prints
the error and exits 1; a clean run exits 0; and the two failure codes are
distinct (2 from `require_env`, line 32, versus 1 from the handler, line 211 —
`sys.exit(2)` raises `SystemExit`, which `except Exception` does not catch). -/
theorem exit_code_discipline (env : String → Option String)
    (body : List String × Except String PassResult) :
    (∀ n ∈ requiredNames, envTruthy env n = false → runProgram env body = (2, [])) ∧
    ((∀ n ∈ requiredNames, envTruthy env n = true) →
      ∀ e, body.2 = .error e → runProgram env body = (1, body.1)) ∧
    ((∀ n ∈ requiredNames, envTruthy env n = true) →
      ∀ p, body.2 = .ok p → runProgram env body = (0, body.1)) ∧
    (2 : Nat) ≠ 1 ∧ (2 : Nat) ≠ 0 := by
  have hfind : (∀ n ∈ requiredNames, envTruthy env n = true) ↔
      requiredNames.find? (fun n => !envTruthy env n) = none := by
    rw [List.find?_eq_none]
    constructor
    · intro h n hn
      simp [h n hn]
    · intro h n hn
      have := h n hn
      simpa using this
  refine ⟨?_, ?_, ?_, by decide, by decide⟩
  · intro n hn hf
    cases hff : requiredNames.find? (fun n => !envTruthy env n) with
    | some m => simp [runProgram, hff]
    | none =>
      exfalso
      rw [← hfind] at hff
      rw [hff n hn] at hf
      simp at hf
  · intro hall e he
    rw [hfind] at hall
    simp [runProgram, hall, he]
  · intro hall p hp
    rw [hfind] at hall
    simp [runProgram, hall, hp]

/-- An environment with no variable set. -/
def envNone : String → Option String := fun _ => none

/-- An environment with every variable set to a non-empty value. -/
def envAll : String → Option String := fun _ => some "x"

/-- C9 witness: missing configuration exits 2 with no network call attempted;
the same failing body under a full configuration exits 1. -/
theorem exit_code_discipline_witness :
    runProgram envNone (["login"], .error "boom") = (2, []) ∧
    runProgram envAll (["login"], .error "boom") = (1, ["login"]) :=
  ⟨(exit_code_discipline envNone (["login"], .error "boom")).1 "UNTIS_SERVER"
      (by decide) (by rfl),
   (exit_code_discipline envAll (["login"], .error "boom")).2.1
      (fun n _ => by rfl) "boom" (by rfl)⟩

theorem nlChar_ws : ('\n').isWhitespace = true := by decide

theorem sappend_assoc (a b c : String) : a ++ b ++ c = a ++ (b ++ c) := by
  apply strExt
  simp [String.data_append, List.append_assoc]

theorem sempty_append (a : String) : "" ++ a = a := by
  apply strExt
  rw [String.data_append]
  rfl

theorem sappend_empty (a : String) : a ++ "" = a := by
  apply strExt
  rw [String.data_append]
  exact List.append_nil _

theorem dropWhile_of_headNoWs (l : List Char) (h : headNoWs l = true) :
    l.dropWhile Char.isWhitespace = l := by
  cases l with
  | nil => rfl
  | cons c t =>
    simp only [headNoWs, Bool.not_eq_true'] at h
    simp [List.dropWhile_cons, h]

theorem headNoWs_append (l₁ l₂ : List Char) (h : l₁ ≠ []) :
    headNoWs (l₁ ++ l₂) = headNoWs l₁ := by
  cases l₁ with
  | nil => exact absurd rfl h
  | cons c t => rfl

theorem stripL_cons_nl (l : List Char) : stripL ('\n' :: l) = stripL l := by
  unfold stripL
  rw [List.dropWhile_cons]
  simp [nlChar_ws]

theorem stripR_append_nl (l : List Char) : stripR (l ++ ['\n']) = stripR l := by
  unfold stripR
  rw [List.reverse_append]
  simp [List.dropWhile_cons, nlChar_ws]

theorem pyStrip_eq_self (m : String) (hh : headNoWs m.data = true)
    (ht : headNoWs m.data.reverse = true) : pyStrip m = m := by
  apply strExt
  show stripList m.data = m.data
  unfold stripList
  rw [show stripL m.data = m.data from dropWhile_of_headNoWs _ hh]
  unfold stripR
  rw [dropWhile_of_headNoWs _ ht, List.reverse_reverse]

theorem pyStrip_nl_cons (m : String) : pyStrip ("\n" ++ m) = pyStrip m := by
  apply strExt
  show stripList (("\n" ++ m).data) = stripList m.data
  rw [String.data_append, show ("\n" : String).data = ['\n'] from by decide,
    List.singleton_append]
  unfold stripList
  rw [stripL_cons_nl]

theorem pyStrip_append_nl (m : String) (hh : headNoWs m.data = true) :
    pyStrip (m ++ "\n") = pyStrip m := by
  apply strExt
  show stripList ((m ++ "\n").data) = stripList m.data
  rw [String.data_append, show ("\n" : String).data = ['\n'] from by decide]
  cases hmd : m.data with
  | nil => decide
  | cons c tl =>
    rw [hmd] at hh
    unfold stripList
    rw [show stripL ((c :: tl) ++ ['\n']) = (c :: tl) ++ ['\n'] from
      dropWhile_of_headNoWs _ (by rw [headNoWs_append _ _ (List.cons_ne_nil c tl)]; exact hh)]
    rw [show stripL (c :: tl) = c :: tl from dropWhile_of_headNoWs _ hh]
    exact stripR_append_nl (c :: tl)

theorem noEdge_head (s : String) (h : noEdgeWs s = true) : headNoWs s.data = true := by
  unfold noEdgeWs at h
  exact (Bool.and_eq_true _ _ ▸ h).1

theorem noEdge_tail (s : String) (h : noEdgeWs s = true) :
    headNoWs s.data.reverse = true := by
  unfold noEdgeWs at h
  exact (Bool.and_eq_true _ _ ▸ h).2

theorem append_data_ne_nil (pre s : String) (h : pre.data ≠ []) : (pre ++ s).data ≠ [] := by
  rw [String.data_append]
  intro hc
  exact h (List.append_eq_nil.mp hc).1

theorem headL (X : List Char) : headNoWs (("Lehrer: ").data ++ X) = true := by
  rw [headNoWs_append _ _ (by decide)]
  decide

theorem headR (X : List Char) : headNoWs (("Raum: ").data ++ X) = true := by
  rw [headNoWs_append _ _ (by decide)]
  decide

theorem headK (X : List Char) : headNoWs (("Klasse: ").data ++ X) = true := by
  rw [headNoWs_append _ _ (by decide)]
  decide

theorem tailVar (s : String) (X : List Char) (h : headNoWs s.data.reverse = true)
    (hne : s ≠ "") : headNoWs (s.data.reverse ++ X) = true := by
  rw [headNoWs_append _ _ (fun hc => data_ne_nil hne (List.reverse_eq_nil_iff.mp hc))]
  exact h

/-- A lesson with a teacher label and a class label but no room label. -/
def lessonC7 : Lesson :=
  { exLesson with id := some 7, te := [⟨some "T", none⟩], ro := [], kl := [⟨some "K", none⟩] }

/-- C7 counterexample: when the room field is empty but teacher and class are
not, the code's `"\n".join([...]).strip()` (lines 113–117) leaves a blank line
in the middle of the description — the empty room slot is not omitted, only
edge whitespace is stripped — so the built description differs from the
spec's "non-empty lines only, empty fields omitted entirely" form. -/
theorem desc_blank_line :
    (build_event exCfg 0 lessonC7).map (fun e => e.description) =
      .ok "Lehrer: T\n\nKlasse: K" ∧
    descSpec "T" "" "K" = "Lehrer: T\nKlasse: K" ∧
    ("Lehrer: T\n\nKlasse: K" : String) ≠ "Lehrer: T\nKlasse: K" :=
  ⟨by rfl, by rfl, by decide⟩

/-- C7 amended: for label strings without edge whitespace, the built
description equals the spec's newline-join of the non-empty lines in every
case EXCEPT when the room field is empty while teacher and class are both
non-empty — then a blank line remains between the teacher and class lines
(the `.strip()` only trims the ends). -/
theorem desc_of_vs_spec (t r k : String)
    (ht : noEdgeWs t = true) (hr : noEdgeWs r = true) (hk : noEdgeWs k = true) :
    (t ≠ "" → r = "" → k ≠ "" →
      desc_of t r k = "Lehrer: " ++ t ++ "\n\n" ++ ("Klasse: " ++ k)) ∧
    ((r = "" → t = "" ∨ k = "") → desc_of t r k = descSpec t r k) := by
  constructor
  · intro htne hre hkne
    subst hre
    unfold desc_of
    rw [if_pos htne, if_pos hkne, if_neg (not_not_intro rfl)]
    rw [sappend_empty]
    refine (pyStrip_eq_self _ ?_ ?_).trans (strExt ?_)
    · simp only [String.data_append, List.append_assoc]
      exact headL _
    · simp only [String.data_append, List.reverse_append, List.append_assoc]
      exact tailVar k _ (noEdge_tail k hk) hkne
    · simp [String.data_append, List.append_assoc,
        show ("\n" : String).data = ['\n'] from by decide,
        show ("\n\n" : String).data = ['\n', '\n'] from by decide]
  · intro hcond
    by_cases hte : t = ""
    · by_cases hre : r = ""
      · by_cases hke : k = ""
        · subst hte; subst hre; subst hke
          decide
        · subst hte
          subst hre
          have hspec : descSpec "" "" k = "Klasse: " ++ k := by
            simp [descSpec, descSpecLines, joinNL, hke]
          rw [hspec]
          unfold desc_of
          rw [if_pos hke, if_neg (not_not_intro rfl), if_neg (not_not_intro rfl)]
          rw [sempty_append, sappend_empty]
          rw [sappend_assoc "\n" "\n" ("Klasse: " ++ k)]
          rw [pyStrip_nl_cons, pyStrip_nl_cons]
          refine (pyStrip_eq_self _ ?_ ?_).trans (strExt ?_)
          · simp only [String.data_append]
            exact headK _
          · simp only [String.data_append, List.reverse_append, List.append_assoc]
            exact tailVar k _ (noEdge_tail k hk) hke
          · simp [String.data_append]
      · by_cases hke : k = ""
        · subst hte
          subst hke
          have hspec : descSpec "" r "" = "Raum: " ++ r := by
            simp [descSpec, descSpecLines, joinNL, hre]
          rw [hspec]
          unfold desc_of
          rw [if_pos hre, if_neg (not_not_intro rfl), if_neg (not_not_intro rfl)]
          rw [sempty_append, sappend_empty]
          rw [sappend_assoc "\n" ("Raum: " ++ r) "\n"]
          rw [pyStrip_nl_cons]
          rw [pyStrip_append_nl]
          · refine (pyStrip_eq_self _ ?_ ?_).trans (strExt ?_)
            · simp only [String.data_append]
              exact headR _
            · simp only [String.data_append, List.reverse_append, List.append_assoc]
              exact tailVar r _ (noEdge_tail r hr) hre
            · simp [String.data_append]
          · simp only [String.data_append]
            exact headR _
        · subst hte
          have hspec : descSpec "" r k =
              ("Raum: " ++ r) ++ "\n" ++ ("Klasse: " ++ k) := by
            simp [descSpec, descSpecLines, joinNL, hre, hke]
          rw [hspec]
          unfold desc_of
          rw [if_pos hre, if_pos hke, if_neg (not_not_intro rfl)]
          rw [sempty_append]
          rw [sappend_assoc "\n" ("Raum: " ++ r) "\n"]
          rw [sappend_assoc "\n" (("Raum: " ++ r) ++ "\n") ("Klasse: " ++ k)]
          rw [pyStrip_nl_cons]
          refine (pyStrip_eq_self _ ?_ ?_).trans (strExt ?_)
          · simp only [String.data_append, List.append_assoc]
            exact headR _
          · simp only [String.data_append, List.reverse_append, List.append_assoc]
            exact tailVar k _ (noEdge_tail k hk) hke
          · simp [String.data_append, List.append_assoc]
    · by_cases hre : r = ""
      · have hke : k = "" := by
          rcases hcond hre with h | h
          · exact absurd h hte
          · exact h
        subst hre
        subst hke
        have hspec : descSpec t "" "" = "Lehrer: " ++ t := by
          simp [descSpec, descSpecLines, joinNL, hte]
        rw [hspec]
        unfold desc_of
        rw [if_pos hte, if_neg (not_not_intro rfl), if_neg (not_not_intro rfl)]
        rw [sappend_empty, sappend_empty]
        rw [pyStrip_append_nl]
        · rw [pyStrip_append_nl]
          · refine (pyStrip_eq_self _ ?_ ?_).trans (strExt ?_)
            · simp only [String.data_append]
              exact headL _
            · simp only [String.data_append, List.reverse_append, List.append_assoc]
              exact tailVar t _ (noEdge_tail t ht) hte
            · simp [String.data_append]
          · simp only [String.data_append]
            exact headL _
        · simp only [String.data_append, List.append_assoc]
          exact headL _
      · by_cases hke : k = ""
        · subst hke
          have hspec : descSpec t r "" =
              ("Lehrer: " ++ t) ++ "\n" ++ ("Raum: " ++ r) := by
            simp [descSpec, descSpecLines, joinNL, hte, hre]
          rw [hspec]
          unfold desc_of
          rw [if_pos hte, if_pos hre, if_neg (not_not_intro rfl)]
          rw [sappend_empty]
          rw [pyStrip_append_nl]
          · refine (pyStrip_eq_self _ ?_ ?_).trans (strExt ?_)
            · simp only [String.data_append, List.append_assoc]
              exact headL _
            · simp only [String.data_append, List.reverse_append, List.append_assoc]
              exact tailVar r _ (noEdge_tail r hr) hre
            · simp [String.data_append, List.append_assoc]
          · simp only [String.data_append, List.append_assoc]
            exact headL _
        · have hspec : descSpec t r k =
              ("Lehrer: " ++ t) ++ "\n" ++ (("Raum: " ++ r) ++ "\n" ++ ("Klasse: " ++ k)) := by
            simp [descSpec, descSpecLines, joinNL, hte, hre, hke]
          rw [hspec]
          unfold desc_of
          rw [if_pos hte, if_pos hre, if_pos hke]
          refine (pyStrip_eq_self _ ?_ ?_).trans (strExt ?_)
          · simp only [String.data_append, List.append_assoc]
            exact headL _
          · simp only [String.data_append, List.reverse_append, List.append_assoc]
            exact tailVar k _ (noEdge_tail k hk) hke
          · simp [String.data_append, List.append_assoc]

/-- C7 witness: instantiations of the amended claim — all fields present, and
the divergent empty-room shape. -/
theorem desc_of_vs_spec_witness :
    desc_of "T" "R" "K" = descSpec "T" "R" "K" ∧
    desc_of "T2" "" "K2" = "Lehrer: " ++ "T2" ++ "\n\n" ++ ("Klasse: " ++ "K2") :=
  ⟨(desc_of_vs_spec "T" "R" "K" (by decide) (by decide) (by decide)).2
      (fun h => absurd h (by decide)),
   (desc_of_vs_spec "T2" "" "K2" (by decide) (by decide) (by decide)).1
      (by decide) rfl (by decide)⟩

end Untis
